import Mathlib

/-!
Verification development for the github-mcp-server repository.

Shallow embedding of:
* `pkg/raw` raw-content client (`URLFromOpts`, `refURL`, `commitURL`),
* the repository-content resource handler (`RepositoryResourceContentsHandler`),
* the `get_job_logs` tool handler (`GetJobLogs`, `handleFailedJobLogs`,
  `handleSingleJobLogs`, `getJobLogData`) from `pkg/github/actions.go`,
* the `pkg/toolsets` toolset-group policy engine (modelled from the spec,
  since that package's source is not part of this source snapshot).

Go strings are byte sequences; we model them as Lean `String`s, which is
faithful on the UTF-8 value domain that all claims range over.  External
collaborators (the GitHub REST client, the HTTP transport) appear as
explicit oracles in an environment record, and every outbound network
request performed by a handler is recorded in an event trace so that
"no network call happens" claims are directly statable.
-/

namespace GithubMcp

/-! ## URL building (pkg/raw, unnamed/part_001)

Go's `url.URL.JoinPath` joins the path elements onto the base URL and
cleans the result; in particular empty path elements are dropped
(`path.Join` semantics).  The `./` and `../` cleaning steps are omitted:
no claim exercises dot segments.  The base is the raw client's URL
(e.g. `https://raw.example.com`), written without a trailing slash. -/
def joinPath (base : String) (elems : List String) : String :=
  base ++ "/" ++ String.intercalate "/" (elems.filter (fun s => s != ""))

/-- `RawContentOpts` from pkg/raw: a `Ref` string or a `SHA` string; the Go
zero value is the empty string, which means "not set". -/
structure RawContentOpts where
  Ref : String := ""
  SHA : String := ""
deriving DecidableEq, Repr

/-- `Client.commitURL` from pkg/raw: `c.url.JoinPath(owner, repo, sha, path)`. -/
def commitURL (base owner repo sha path : String) : String :=
  joinPath base [owner, repo, sha, path]

/-- `Client.refURL` from pkg/raw: empty ref resolves to `HEAD`. -/
def refURL (base owner repo ref path : String) : String :=
  if ref = "" then joinPath base [owner, repo, "HEAD", path]
  else joinPath base [owner, repo, ref, path]

/-- `Client.URLFromOpts` from pkg/raw: a `nil` opts pointer is replaced by the
zero value; a non-empty `SHA` takes the `commitURL` branch, otherwise
`refURL` is used with `opts.Ref`. -/
def URLFromOpts (base : String) (opts : Option RawContentOpts)
    (owner repo path : String) : String :=
  let o := opts.getD {}
  if o.SHA ≠ "" then commitURL base owner repo o.SHA path
  else refURL base owner repo o.Ref path

/-- The `.../HEAD/...` URL that the spec says an unselected lookup resolves to. -/
def headURL (base owner repo path : String) : String :=
  joinPath base [owner, repo, "HEAD", path]

/-! ## Go standard-library helpers used by the handler -/

/-- Helper for `filepathExt`: scans the path from its end (the input list is
the reversed character list); `acc` holds the characters already passed, in
original order.  Stops at a path separator or at the final dot. -/
def extGo : List Char → List Char → Option String
  | [], _ => none
  | c :: rest, acc =>
    if c = '/' then none
    else if c = '.' then some (String.mk (c :: acc))
    else extGo rest (c :: acc)

/-- Go `filepath.Ext`: the suffix beginning at the final dot in the final
slash-separated element of the path; empty if there is no dot. -/
def filepathExt (p : String) : String :=
  (extGo p.data.reverse []).getD ""

/-- The built-in table of Go's `mime` package (`src/mime/type.go`),
keyed by lower-case extension. -/
def builtinMimeTypes : List (String × String) :=
  [(".avif", "image/avif"),
   (".css", "text/css; charset=utf-8"),
   (".gif", "image/gif"),
   (".htm", "text/html; charset=utf-8"),
   (".html", "text/html; charset=utf-8"),
   (".jpeg", "image/jpeg"),
   (".jpg", "image/jpeg"),
   (".js", "text/javascript; charset=utf-8"),
   (".json", "application/json"),
   (".mjs", "text/javascript; charset=utf-8"),
   (".pdf", "application/pdf"),
   (".png", "image/png"),
   (".svg", "image/svg+xml"),
   (".wasm", "application/wasm"),
   (".webp", "image/webp"),
   (".xml", "text/xml; charset=utf-8")]

/-- ASCII lower-casing of an extension string (extension strings consist of
ASCII characters, on which Go's `strings.ToLower` agrees with this). -/
def lowerExt (s : String) : String :=
  String.mk (s.data.map (fun c =>
    if 'A' ≤ c ∧ c ≤ 'Z' then Char.ofNat (c.toNat + 32) else c))

/-- Go `mime.TypeByExtension`: looks the extension up as given and then
lower-cased; returns `""` when unknown.  Entries contributed by the
operating system's mime tables are omitted (they only extend the map and no
claim depends on any of them). -/
def mimeTypeByExtension (ext : String) : String :=
  match builtinMimeTypes.lookup ext with
  | some v => v
  | none =>
    match builtinMimeTypes.lookup (lowerExt ext) with
    | some v => v
    | none => ""

/-- UTF-8 encoding of one character, as the byte values Go would see in the
corresponding string. -/
def utf8Bytes (c : Char) : List Nat :=
  let n := c.toNat
  if n < 0x80 then [n]
  else if n < 0x800 then [0xC0 + n / 64, 0x80 + n % 64]
  else if n < 0x10000 then
    [0xE0 + n / 4096, 0x80 + (n / 64) % 64, 0x80 + n % 64]
  else
    [0xF0 + n / 262144, 0x80 + (n / 4096) % 64, 0x80 + (n / 64) % 64,
     0x80 + n % 64]

/-- The bytes of a string (a Go string is exactly this byte sequence). -/
def strBytes (s : String) : List Nat :=
  s.data.flatMap utf8Bytes

/-- The standard base64 alphabet used by Go's `base64.StdEncoding`. -/
def b64Alphabet : List Char :=
  "ABCDEFGHIJKLMNOPQRSTUVWXYZabcdefghijklmnopqrstuvwxyz0123456789+/".data

/-- One output character of base64, `n < 64`. -/
def b64Char (n : Nat) : Char :=
  b64Alphabet.getD n 'A'

/-- Base64 over a byte list, three input bytes per four output characters,
`=`-padded, as `base64.StdEncoding.EncodeToString` produces. -/
def b64Chunks : List Nat → String
  | [] => ""
  | [a] =>
    String.mk [b64Char (a / 4), b64Char (a % 4 * 16)] ++ "=="
  | [a, b] =>
    String.mk [b64Char (a / 4), b64Char (a % 4 * 16 + b / 16),
               b64Char (b % 16 * 4)] ++ "="
  | a :: b :: c :: rest =>
    String.mk [b64Char (a / 4), b64Char (a % 4 * 16 + b / 16),
               b64Char (b % 16 * 4 + c / 64), b64Char (c % 64)] ++
      b64Chunks rest

/-- `base64.StdEncoding.EncodeToString` applied to the bytes of a Go string. -/
def base64Encode (s : String) : String :=
  b64Chunks (strBytes s)

/-! ## RepositoryResourceContentsHandler (pkg/github, in raw_mock.go)

The handler's external collaborators are supplied as oracles in `RawEnv`.
The handler result models the Go pair `([]mcp.ResourceContents, error)`
as an `Except`, and every outbound network request (the auxiliary
pull-request lookup and the raw-content GET) is recorded in a trace. -/

/-- An HTTP response from the raw-content endpoint: status code, the
`Content-Type` header (`""` when the header is absent, as
`resp.Header.Get` returns), and the body bytes (as a Go string).
Body reads are modelled as always succeeding (`io.ReadAll` errors are
transport faults outside every claim). -/
structure RawResp where
  status : Nat
  contentType : String
  body : String
deriving DecidableEq, Repr

/-- `mcp.TextResourceContents` / `mcp.BlobResourceContents` as returned by the
handler. -/
inductive ResourceContents where
  | text (uri mimeType text : String)
  | blob (uri mimeType blob : String)
deriving DecidableEq, Repr

/-- The MIME type carried by a resource. -/
def ResourceContents.mimeType : ResourceContents → String
  | .text _ m _ => m
  | .blob _ m _ => m

/-- An outbound network request made by the handler. -/
inductive NetEvent where
  | prLookup (owner repo : String) (num : Nat)
  | rawFetch (url : String)
deriving DecidableEq, Repr

/-- The fields of `mcp.ReadResourceRequest` the handler reads: the URI and
the template-matcher arguments.  Each argument models
`request.Params.Arguments[k].([]string)`: `none` stands for an absent key or
a failed type assertion. -/
structure RawRequest where
  uri : String
  owner : Option (List String) := none
  repo : Option (List String) := none
  path : Option (List String) := none
  sha : Option (List String) := none
  branch : Option (List String) := none
  tag : Option (List String) := none
  prNumber : Option (List String) := none
deriving Repr

/-- The handler's external collaborators: `getClient` (REST client
construction), the pull-request lookup `owner → repo → number → head SHA`
(`pr.GetHead().GetSHA()` of `PullRequests.Get`), `getRawClient`, the raw
client's base URL, and the raw-content GET keyed by the resolved URL. -/
structure RawEnv where
  getClient : Except String Unit
  prHeadSHA : String → String → Nat → Except String String
  getRawClient : Except String Unit
  rawBase : String
  fetch : String → Except String RawResp

/-- Go `strings.HasSuffix` (and `String.endsWith`), computed structurally
on the character lists. -/
def goHasSuffix (s suf : String) : Bool :=
  suf.data.isSuffixOf s.data

/-- Go `strings.HasPrefix` (and `String.startsWith`), computed structurally
on the character lists. -/
def goStartsWith (s p : String) : Bool :=
  p.data.isPrefixOf s.data

/-- The MIME-type assignment of the 200 branch (raw_mock.go lines
1696-1702): start from the `Content-Type` header; a `.md` extension forces
`text/markdown`; otherwise an empty header falls back to
`mime.TypeByExtension`. -/
def responseMime (path header : String) : String :=
  let ext := filepathExt path
  if ext = ".md" then "text/markdown"
  else if header = "" then mimeTypeByExtension ext
  else header

/-- The handler from the directory check onwards (raw_mock.go lines
1677-1737): reject directory-like paths, build the raw client, GET the
resolved URL, then classify a 200 body as text or blob by the MIME prefix,
surface a non-200/non-404 status as an error carrying the body, and a 404
as the literal `404 Not Found` error. -/
def afterSelectors (env : RawEnv) (uri owner repo path : String)
    (rawOpts : RawContentOpts) (events : List NetEvent) :
    Except String (List ResourceContents) × List NetEvent :=
  if path == "" || goHasSuffix path "/" then
    (.error ("directories are not supported: " ++ path), events)
  else
    match env.getRawClient with
    | .error e => (.error ("failed to get GitHub raw content client: " ++ e), events)
    | .ok _ =>
      let url := URLFromOpts env.rawBase (some rawOpts) owner repo path
      let events := events ++ [NetEvent.rawFetch url]
      match env.fetch url with
      | .error e => (.error ("failed to get raw content: " ++ e), events)
      | .ok resp =>
        if resp.status = 200 then
          let mimeType := responseMime path resp.contentType
          if goStartsWith mimeType "text" || goStartsWith mimeType "application" then
            (.ok [ResourceContents.text uri mimeType resp.body], events)
          else
            (.ok [ResourceContents.blob uri mimeType (base64Encode resp.body)], events)
        else if resp.status ≠ 404 then
          (.error ("failed to fetch raw content: " ++ resp.body), events)
        else
          (.error "404 Not Found", events)

/-- Digit-accumulation loop of `goAtoi`. -/
def goAtoiCore : Nat → List Char → Option Nat
  | acc, [] => some acc
  | acc, c :: r =>
    if '0' ≤ c ∧ c ≤ '9' then goAtoiCore (acc * 10 + (c.toNat - '0'.toNat)) r
    else none

/-- Go `strconv.Atoi` on the inputs the handler can meet: a non-empty digit
string parses to its decimal value, anything else is an error (`none`).
`Atoi`'s sign handling is omitted — a pull-request number argument is never
signed. -/
def goAtoi (s : String) : Option Nat :=
  match s.data with
  | [] => none
  | l => goAtoiCore 0 l

/-- The `sha`/`branch`/`tag` selector resolution (raw_mock.go lines
1639-1657): each present, non-empty argument overwrites the corresponding
`RawContentOpts` field in this fixed order. -/
def selectorOpts (sha branch tag : Option (List String)) : RawContentOpts :=
  let rawOpts : RawContentOpts := {}
  let rawOpts := match sha with
    | some (s :: _) => { rawOpts with SHA := s }
    | _ => rawOpts
  let rawOpts := match branch with
    | some (b :: _) => { rawOpts with Ref := "refs/heads/" ++ b }
    | _ => rawOpts
  let rawOpts := match tag with
    | some (tg :: _) => { rawOpts with Ref := "refs/tags/" ++ tg }
    | _ => rawOpts
  rawOpts

/-- `RepositoryResourceContentsHandler` (raw_mock.go lines 1615-1739):
parameter extraction, reference-selector resolution (with the auxiliary
pull-request lookup for `prNumber`), then `afterSelectors`.  The
`github.RepositoryContentGetOptions` value the Go code also fills in is
dead after assignment (never read again in the handler) and is not
modelled.  `strconv.Atoi` is modelled by `goAtoi`. -/
def repoContentsHandler (env : RawEnv) (req : RawRequest) :
    Except String (List ResourceContents) × List NetEvent :=
  match req.owner with
  | none => (.error "owner is required", [])
  | some [] => (.error "owner is required", [])
  | some (owner :: _) =>
    match req.repo with
    | none => (.error "repo is required", [])
    | some [] => (.error "repo is required", [])
    | some (repo :: _) =>
      let path := match req.path with
        | some p => String.intercalate "/" p
        | none => ""
      let rawOpts := selectorOpts req.sha req.branch req.tag
      match req.prNumber with
      | some (p :: _) =>
        (match env.getClient with
        | .error e => (.error ("failed to get GitHub client: " ++ e), [])
        | .ok _ =>
          match goAtoi p with
          | none => (.error "invalid pull request number", [])
          | some n =>
            match env.prHeadSHA owner repo n with
            | .error e =>
              (.error ("failed to get pull request: " ++ e),
               [NetEvent.prLookup owner repo n])
            | .ok sha =>
              afterSelectors env req.uri owner repo path
                { rawOpts with SHA := sha } [NetEvent.prLookup owner repo n])
      | _ => afterSelectors env req.uri owner repo path rawOpts []

/-! ## get_job_logs (pkg/github/actions.go)

The GitHub Actions client is an oracle in `ActionsEnv`; every API request a
handler issues is recorded in a trace.  A Go `(*mcp.CallToolResult, error)`
pair is modelled as `Except String ToolOut`, where `.error` is a non-nil Go
error and `ToolOut.errorResult` is `mcp.NewToolResultError`. -/

/-- The fields of `github.WorkflowJob` the handlers read (`GetID`,
`GetName`, `GetConclusion`). -/
structure WorkflowJob where
  id : Nat
  name : String
  conclusion : String
deriving DecidableEq, Repr

/-- One entry of the `logs` array built by `handleFailedJobLogs`: either the
map produced by `getJobLogData` (`job_id`, `job_name` — empty means the key
is absent — and either `logs_content` or `logs_url` in `data`), or the
inline error map `{job_id, job_name, error}` built when fetching one job's
log fails. -/
inductive JobLogSlot where
  | ok (jobId : Nat) (jobName : String) (data : String) (isContent : Bool)
  | fail (jobId : Nat) (jobName : String) (errMsg : String)
deriving DecidableEq, Repr

/-- The serialized tool results the get_job_logs handlers can produce. -/
inductive ToolOut where
  | errorResult (msg : String)
  | noFailedJobs (runId totalJobs : Nat)
  | failedLogs (runId totalJobs failedCount : Nat) (slots : List JobLogSlot)
      (returnContent : Bool)
  | singleLog (jobId : Nat) (jobName data : String) (isContent : Bool)
deriving DecidableEq, Repr

/-- A GitHub API request (or log download) issued by the handlers. -/
inductive ActionsEvent where
  | listWorkflowJobs (owner repo : String) (runId : Nat)
  | getWorkflowJobLogs (owner repo : String) (jobId : Nat)
  | download (url : String)
deriving DecidableEq, Repr

/-- The external collaborators of the get_job_logs path: REST-client
construction, `Actions.ListWorkflowJobs` (with filter `latest`),
`Actions.GetWorkflowJobLogs` (returning the redirect URL), and the plain
HTTP download of a logs URL. -/
structure ActionsEnv where
  getClient : Except String Unit
  listWorkflowJobs : String → String → Nat → Except String (List WorkflowJob)
  getWorkflowJobLogs : String → String → Nat → Except String String
  download : String → Except String String

/-- `getJobLogData` (actions.go lines 717-749): fetch the download URL for
one job's logs and, when `returnContent` is set, download and return the
content, otherwise return the URL. -/
def getJobLogData (env : ActionsEnv) (owner repo : String) (jobID : Nat)
    (jobName : String) (returnContent : Bool) :
    Except String JobLogSlot × List ActionsEvent :=
  match env.getWorkflowJobLogs owner repo jobID with
  | .error e =>
    (.error ("failed to get job logs for job " ++ toString jobID ++ ": " ++ e),
     [ActionsEvent.getWorkflowJobLogs owner repo jobID])
  | .ok url =>
    if returnContent then
      match env.download url with
      | .error e =>
        (.error ("failed to download log content for job " ++ toString jobID ++
           ": " ++ e),
         [ActionsEvent.getWorkflowJobLogs owner repo jobID,
          ActionsEvent.download url])
      | .ok content =>
        (.ok (JobLogSlot.ok jobID jobName content true),
         [ActionsEvent.getWorkflowJobLogs owner repo jobID,
          ActionsEvent.download url])
    else
      (.ok (JobLogSlot.ok jobID jobName url false),
       [ActionsEvent.getWorkflowJobLogs owner repo jobID])

/-- The per-job collection loop of `handleFailedJobLogs` (actions.go lines
670-683): a failed fetch is recorded inline as an error slot and the loop
continues with the remaining jobs. -/
def collectJobLogs (env : ActionsEnv) (owner repo : String)
    (returnContent : Bool) : List WorkflowJob → List JobLogSlot × List ActionsEvent
  | [] => ([], [])
  | job :: rest =>
    let r := getJobLogData env owner repo job.id job.name returnContent
    let slot := match r.1 with
      | .error e => JobLogSlot.fail job.id job.name e
      | .ok d => d
    let tail := collectJobLogs env owner repo returnContent rest
    (slot :: tail.1, r.2 ++ tail.2)

/-- `handleFailedJobLogs` (actions.go lines 640-700): list the run's jobs,
filter for conclusion `failure`, report when there are none, otherwise
collect one result slot per failed job. -/
def handleFailedJobLogs (env : ActionsEnv) (owner repo : String)
    (runID : Nat) (returnContent : Bool) :
    Except String ToolOut × List ActionsEvent :=
  match env.listWorkflowJobs owner repo runID with
  | .error e =>
    (.ok (.errorResult ("failed to list workflow jobs: " ++ e)),
     [ActionsEvent.listWorkflowJobs owner repo runID])
  | .ok jobs =>
    let failedJobs := jobs.filter (fun j => j.conclusion == "failure")
    if failedJobs.length = 0 then
      (.ok (.noFailedJobs runID jobs.length),
       [ActionsEvent.listWorkflowJobs owner repo runID])
    else
      let collected := collectJobLogs env owner repo returnContent failedJobs
      (.ok (.failedLogs runID jobs.length failedJobs.length collected.1
              returnContent),
       ActionsEvent.listWorkflowJobs owner repo runID :: collected.2)

/-- `handleSingleJobLogs` (actions.go lines 702-715): one job's log data; a
fetch error becomes a tool-level error result. -/
def handleSingleJobLogs (env : ActionsEnv) (owner repo : String)
    (jobID : Nat) (returnContent : Bool) :
    Except String ToolOut × List ActionsEvent :=
  let r := getJobLogData env owner repo jobID "" returnContent
  match r.1 with
  | .error e => (.ok (.errorResult e), r.2)
  | .ok (JobLogSlot.ok i n d c) => (.ok (.singleLog i n d c), r.2)
  | .ok (JobLogSlot.fail _ _ e) => (.ok (.errorResult e), r.2)

/-- The arguments of a `get_job_logs` call as the handler's extraction
helpers see them; `none` is an absent key.  Present-but-wrongly-typed
values (which the extraction helpers reject) are outside the model; no
claim mentions them. -/
structure GetJobLogsArgs where
  owner : Option String := none
  repo : Option String := none
  jobId : Option Nat := none
  runId : Option Nat := none
  failedOnly : Option Bool := none
  returnContent : Option Bool := none
deriving Repr

/-- Modelled from the spec: the Parameter Extraction leaf (required-string
accessor) is not part of this source snapshot; per the spec it is a
type-checked accessor that fails on a missing required parameter (the Go
zero value `""` counts as missing). -/
def requiredStringParam (v : Option String) (name : String) :
    Except String String :=
  match v with
  | none => .error ("missing required parameter: " ++ name)
  | some s =>
    if s = "" then .error ("missing required parameter: " ++ name) else .ok s

/-- Modelled from the spec: the optional-parameter accessors
(`OptionalIntParam`, `OptionalParam[bool]`) return the Go zero value when
the key is absent. -/
def optionalNatParam (v : Option Nat) : Nat := v.getD 0

/-- Modelled from the spec: optional boolean accessor, `false` when absent. -/
def optionalBoolParam (v : Option Bool) : Bool := v.getD false

/-- The `get_job_logs` handler (actions.go lines 587-637): extract
parameters, build the client, validate the `failed_only`/`run_id`/`job_id`
combination, then dispatch to the failed-jobs or single-job path. -/
def getJobLogsHandler (env : ActionsEnv) (args : GetJobLogsArgs) :
    Except String ToolOut × List ActionsEvent :=
  match requiredStringParam args.owner "owner" with
  | .error e => (.ok (.errorResult e), [])
  | .ok owner =>
    match requiredStringParam args.repo "repo" with
    | .error e => (.ok (.errorResult e), [])
    | .ok repo =>
      let jobID := optionalNatParam args.jobId
      let runID := optionalNatParam args.runId
      let failedOnly := optionalBoolParam args.failedOnly
      let returnContent := optionalBoolParam args.returnContent
      match env.getClient with
      | .error e => (.error ("failed to get GitHub client: " ++ e), [])
      | .ok _ =>
        if failedOnly && runID == 0 then
          (.ok (.errorResult "run_id is required when failed_only is true"), [])
        else if !failedOnly && jobID == 0 then
          (.ok (.errorResult "job_id is required when failed_only is false"), [])
        else if failedOnly && runID > 0 then
          handleFailedJobLogs env owner repo runID returnContent
        else if jobID > 0 then
          handleSingleJobLogs env owner repo jobID returnContent
        else
          (.ok (.errorResult
            "Either job_id must be provided for single job logs, or run_id with failed_only=true for failed job logs"), [])

/-! ## Toolset group (pkg/toolsets)

The `pkg/toolsets` package itself is not part of this source snapshot —
only its caller `DefaultToolsetGroup` (pkg/github/tools.go) is.  The data
model and the exposure algorithm below are therefore modelled from the
spec, sections 3 and 4.1. -/

/-- Modelled from the spec: an operation ("tool") — name, description
(parameter schema, annotations and the handler do not affect exposure and
are omitted). -/
structure Tool where
  name : String
  description : String := ""
deriving DecidableEq, Repr

/-- Modelled from the spec: a toolset — identity, description, ordered read
and write operation collections, and a mutable `enabled` flag defaulting to
false. -/
structure Toolset where
  name : String
  description : String
  readTools : List Tool := []
  writeTools : List Tool := []
  enabled : Bool := false
deriving DecidableEq, Repr

/-- Modelled from the spec: `NewToolset` creates a disabled toolset with no
operations. -/
def NewToolset (name description : String) : Toolset :=
  { name := name, description := description }

/-- Modelled from the spec: `AddReadTools` registers read operations, in
registration order. -/
def addReadTools (ts : Toolset) (tools : List Tool) : Toolset :=
  { ts with readTools := ts.readTools ++ tools }

/-- Modelled from the spec: `AddWriteTools` registers write operations; the
operations are retained even under a read-only group (exposure, not
registration, filters them). -/
def addWriteTools (ts : Toolset) (tools : List Tool) : Toolset :=
  { ts with writeTools := ts.writeTools ++ tools }

/-- Modelled from the spec: a toolset group — an ordered collection of
toolsets keyed by name and a `readOnly` flag fixed at construction. -/
structure ToolsetGroup where
  toolsets : List Toolset
  readOnly : Bool
deriving Repr

/-- Modelled from the spec: `NewToolsetGroup` creates an empty group with
the given fixed read-only policy. -/
def NewToolsetGroup (readOnly : Bool) : ToolsetGroup :=
  { toolsets := [], readOnly := readOnly }

/-- Modelled from the spec: `AddToolset` registers a toolset by name and
rejects duplicates (the error is reported, never fatal, so the rejected
registration leaves the group unchanged). -/
def addToolset (g : ToolsetGroup) (ts : Toolset) : ToolsetGroup :=
  if g.toolsets.any (fun t => t.name == ts.name) then g
  else { g with toolsets := g.toolsets ++ [ts] }

/-- Modelled from the spec: `EnableToolset` sets `enabled := true` on the
named toolset; an unknown name is a reported error and leaves the group
unchanged (the map below is then the identity). -/
def enableToolset (g : ToolsetGroup) (name : String) : ToolsetGroup :=
  { g with
    toolsets := g.toolsets.map (fun ts =>
      if ts.name == name then { ts with enabled := true } else ts) }

/-- Modelled from the spec: the exposure algorithm — the union over enabled
toolsets of their read operations plus, only when the group is not
read-only, their write operations, in registration order.  The always-on
dynamic-discovery operations live in the distinguished `dynamic` toolset,
which is a group member with `enabled := true` and is therefore covered by
this union. -/
def exposedTools (g : ToolsetGroup) : List Tool :=
  (g.toolsets.filter (fun ts => ts.enabled)).flatMap (fun ts =>
    ts.readTools ++ if g.readOnly then [] else ts.writeTools)

/-- A sequence of `EnableToolset` calls, applied in order. -/
def applyEnables (g : ToolsetGroup) (names : List String) : ToolsetGroup :=
  names.foldl enableToolset g

/-- The names of every operation registered in the group, read or write —
the spec's group-wide uniqueness invariant ranges over this list. -/
def allToolNames (g : ToolsetGroup) : List String :=
  (g.toolsets.flatMap (fun ts => ts.readTools ++ ts.writeTools)).map Tool.name

/-- The MIME-type policy exactly as the spec phrases it: (a) a `.md` path
forces `text/markdown` regardless of the header; (b) else a non-empty
`Content-Type` header is used; (c) else the standard extension lookup;
(d) else empty (the lookup returns `""` for an unknown extension). -/
def claimMime (path header : String) : String :=
  if filepathExt path = ".md" then "text/markdown"
  else if header ≠ "" then header
  else mimeTypeByExtension (filepathExt path)

/-- The text/binary split exactly as the spec phrases it: MIME types
beginning with `text` or `application` are textual, everything else
(including the empty MIME type) is a blob. -/
def claimIsTextual (mime : String) : Bool :=
  goStartsWith mime "text" || goStartsWith mime "application"

/-- The MIME type of a single-resource success result, if it is one. -/
def resultMime : Except String (List ResourceContents) → Option String
  | .ok [r] => some r.mimeType
  | _ => none

/-- A one-toolset read-only group used as a concrete example: one read tool
and one write tool, in the shape of the `repos` toolset of
`DefaultToolsetGroup`. -/
def exampleReadOnlyGroup : ToolsetGroup :=
  { toolsets :=
      [{ name := "repos"
         description := "GitHub Repository related tools"
         readTools := [{ name := "get_file_contents" }]
         writeTools := [{ name := "create_or_update_file" }] }]
    readOnly := true }

/-- The `repos` toolset of `exampleReadOnlyGroup` after it has been
enabled. -/
def exampleEnabledRepos : Toolset :=
  { name := "repos"
    description := "GitHub Repository related tools"
    readTools := [{ name := "get_file_contents" }]
    writeTools := [{ name := "create_or_update_file" }]
    enabled := true }

/-! ## Theorems -/

/-- Intercalation of four explicit segments. -/
lemma intercalate_four (a b c d : String) :
    String.intercalate "/" [a, b, c, d] =
      a ++ "/" ++ b ++ "/" ++ c ++ "/" ++ d := by
  simp [String.intercalate, String.intercalate.go, String.append_assoc]

/-- With four non-empty segments, `joinPath` is the plain slash-joined URL. -/
lemma joinPath_four {a b c d : String} (ha : a ≠ "") (hb : b ≠ "")
    (hc : c ≠ "") (hd : d ≠ "") (base : String) :
    joinPath base [a, b, c, d] =
      base ++ "/" ++ a ++ "/" ++ b ++ "/" ++ c ++ "/" ++ d := by
  have hfa : (a != "") = true := by simpa using ha
  have hfb : (b != "") = true := by simpa using hb
  have hfc : (c != "") = true := by simpa using hc
  have hfd : (d != "") = true := by simpa using hd
  simp only [joinPath, List.filter, hfa, hfb, hfc, hfd]
  rw [intercalate_four]
  simp [String.append_assoc]

/-- C2: with both `SHA` and `Ref` non-empty, `URLFromOpts` builds the
commit URL `base/owner/repo/<SHA>/path`; the SHA selector takes precedence
over the Ref selector for all inputs. -/
theorem C2_urlFromOpts_sha_precedence (base owner repo path : String)
    (opts : RawContentOpts) (hsha : opts.SHA ≠ "") (href : opts.Ref ≠ "") :
    URLFromOpts base (some opts) owner repo path =
      joinPath base [owner, repo, opts.SHA, path] ∧
    (owner ≠ "" → repo ≠ "" → path ≠ "" →
      URLFromOpts base (some opts) owner repo path =
        base ++ "/" ++ owner ++ "/" ++ repo ++ "/" ++ opts.SHA ++ "/" ++ path) := by
  constructor
  · simp [URLFromOpts, commitURL, hsha]
  · intro ho hr hp
    simp [URLFromOpts, commitURL, hsha, joinPath_four ho hr hsha hp]

/-- C2 witness: both selectors set on concrete inputs; the resolved URL is
the SHA URL from the repository's own test table. -/
theorem C2_urlFromOpts_sha_precedence_witness :
    ({ Ref := "refs/heads/main", SHA := "abc123" } : RawContentOpts).SHA ≠ "" ∧
    URLFromOpts "https://raw.example.com"
        (some { Ref := "refs/heads/main", SHA := "abc123" })
        "octocat" "hello" "README.md" =
      "https://raw.example.com/octocat/hello/abc123/README.md" := by
  refine ⟨by decide, ?_⟩
  have h := C2_urlFromOpts_sha_precedence "https://raw.example.com"
    "octocat" "hello" "README.md" { Ref := "refs/heads/main", SHA := "abc123" }
    (by decide) (by decide)
  have := h.2 (by decide) (by decide) (by decide)
  simpa using this

/-- C3: a `nil` opts pointer, or one with both selectors empty, resolves to
the `base/owner/repo/HEAD/path` URL. -/
theorem C3_urlFromOpts_head_default (base owner repo path : String)
    (opts : Option RawContentOpts)
    (h : opts = none ∨ ∃ o, opts = some o ∧ o.SHA = "" ∧ o.Ref = "") :
    URLFromOpts base opts owner repo path = headURL base owner repo path ∧
    (owner ≠ "" → repo ≠ "" → path ≠ "" →
      URLFromOpts base opts owner repo path =
        base ++ "/" ++ owner ++ "/" ++ repo ++ "/" ++ "HEAD" ++ "/" ++ path) := by
  have hmain : URLFromOpts base opts owner repo path =
      headURL base owner repo path := by
    rcases h with h | ⟨o, rfl, hs, hr⟩
    · subst h; simp [URLFromOpts, refURL, headURL]
    · simp [URLFromOpts, refURL, headURL, hs, hr]
  refine ⟨hmain, fun ho hr hp => ?_⟩
  rw [hmain, headURL, joinPath_four ho hr (by decide) hp]

/-- C3 witness: no opts on concrete inputs; the resolved URL is the HEAD
URL from the repository's own test table. -/
theorem C3_urlFromOpts_head_default_witness :
    (none : Option RawContentOpts) = none ∧
    URLFromOpts "https://raw.example.com" none "octocat" "hello" "README.md" =
      "https://raw.example.com/octocat/hello/HEAD/README.md" := by
  refine ⟨rfl, ?_⟩
  have h := C3_urlFromOpts_head_default "https://raw.example.com"
    "octocat" "hello" "README.md" none (Or.inl rfl)
  have := h.2 (by decide) (by decide) (by decide)
  simpa using this

/-- The source's MIME assignment agrees with the spec's (a)-(d) order. -/
lemma responseMime_eq_claimMime (path header : String) :
    responseMime path header = claimMime path header := by
  unfold responseMime claimMime
  by_cases h : filepathExt path = ".md" <;> by_cases h2 : header = "" <;>
    simp [h, h2]

/-- Reduction of `afterSelectors` on a 200 response: the resource carries
the computed MIME type and is text or blob according to the prefix test,
and the trace gains exactly the raw fetch. -/
lemma afterSelectors_200 (env : RawEnv) (uri owner repo path : String)
    (rawOpts : RawContentOpts) (events : List NetEvent) (resp : RawResp)
    (hpath : (path == "" || goHasSuffix path "/") = false)
    (hrawc : env.getRawClient = Except.ok ())
    (hfetch : ∀ u, env.fetch u = Except.ok resp)
    (hst : resp.status = 200) :
    afterSelectors env uri owner repo path rawOpts events =
      (let m := responseMime path resp.contentType
      if goStartsWith m "text" || goStartsWith m "application" then
        (Except.ok [ResourceContents.text uri m resp.body],
         events ++ [NetEvent.rawFetch
           (URLFromOpts env.rawBase (some rawOpts) owner repo path)])
      else
        (Except.ok [ResourceContents.blob uri m (base64Encode resp.body)],
         events ++ [NetEvent.rawFetch
           (URLFromOpts env.rawBase (some rawOpts) owner repo path)])) := by
  simp only [afterSelectors, hpath, Bool.false_eq_true, if_false, hrawc,
    hfetch, hst, if_true]

/-- Reduction of the handler when owner and repo are present and `prNumber`
is absent: straight to `afterSelectors` with an empty trace. -/
lemma handler_noPr (env : RawEnv) (uri owner repo : String)
    (orest rrest : List String) (pathArg sha branch tag : Option (List String)) :
    repoContentsHandler env
      { uri := uri, owner := some (owner :: orest),
        repo := some (repo :: rrest), path := pathArg, sha := sha,
        branch := branch, tag := tag, prNumber := none } =
      afterSelectors env uri owner repo
        (match pathArg with
         | some p => String.intercalate "/" p
         | none => "")
        (selectorOpts sha branch tag) [] := rfl

/-- Reduction of the handler when `prNumber` is present, the client builds,
the number parses and the pull-request lookup succeeds: `afterSelectors`
runs with the head SHA as the SHA selector and the lookup in the trace. -/
lemma handler_pr (env : RawEnv) (uri owner repo : String)
    (orest rrest : List String) (pathArg sha branch tag : Option (List String))
    (p : String) (prest : List String) (n : Nat) (headSha : String)
    (hclient : env.getClient = Except.ok ())
    (hn : goAtoi p = some n)
    (hpr : env.prHeadSHA owner repo n = Except.ok headSha) :
    repoContentsHandler env
      { uri := uri, owner := some (owner :: orest),
        repo := some (repo :: rrest), path := pathArg, sha := sha,
        branch := branch, tag := tag, prNumber := some (p :: prest) } =
      afterSelectors env uri owner repo
        (match pathArg with
         | some pp => String.intercalate "/" pp
         | none => "")
        { selectorOpts sha branch tag with SHA := headSha }
        [NetEvent.prLookup owner repo n] := by
  simp only [repoContentsHandler, hclient, hn, hpr]

/-- On a 200 response the single returned resource's MIME type is the
claim's (a)-(d) order applied to the path and header. -/
lemma resultMime_afterSelectors_200 (env : RawEnv)
    (uri owner repo path : String) (rawOpts : RawContentOpts)
    (events : List NetEvent) (resp : RawResp)
    (hpath : (path == "" || goHasSuffix path "/") = false)
    (hrawc : env.getRawClient = Except.ok ())
    (hfetch : ∀ u, env.fetch u = Except.ok resp)
    (hst : resp.status = 200) :
    resultMime (afterSelectors env uri owner repo path rawOpts events).1 =
      some (claimMime path resp.contentType) := by
  rw [afterSelectors_200 env uri owner repo path rawOpts events resp hpath
    hrawc hfetch hst]
  simp only [responseMime_eq_claimMime, apply_ite Prod.fst]
  split <;> rfl

/-- C4: for every 200 response handled by the repository-content handler —
whatever combination of `sha`, `branch`, `tag` and `prNumber` selectors the
request carries — the resulting MIME type is: `text/markdown` for a `.md`
path regardless of the header; otherwise the non-empty `Content-Type`
header; otherwise the standard extension lookup; otherwise empty. -/
theorem C4_mime_determination (env : RawEnv) (uri owner repo : String)
    (orest rrest pathParts : List String)
    (sha branch tag prNum : Option (List String)) (resp : RawResp)
    (hpath : (String.intercalate "/" pathParts == "" ||
      goHasSuffix (String.intercalate "/" pathParts) "/") = false)
    (hpr : prNum = none ∨ ∃ p prest n, prNum = some (p :: prest) ∧
      goAtoi p = some n ∧ env.getClient = Except.ok () ∧
      ∃ s, env.prHeadSHA owner repo n = Except.ok s)
    (hrawc : env.getRawClient = Except.ok ())
    (hfetch : ∀ u, env.fetch u = Except.ok resp)
    (hst : resp.status = 200) :
    resultMime (repoContentsHandler env
      { uri := uri, owner := some (owner :: orest),
        repo := some (repo :: rrest), path := some pathParts, sha := sha,
        branch := branch, tag := tag, prNumber := prNum }).1 =
      some (claimMime (String.intercalate "/" pathParts) resp.contentType) := by
  rcases hpr with rfl | ⟨p, prest, n, rfl, hn, hclient, s, hprs⟩
  · rw [handler_noPr]
    exact resultMime_afterSelectors_200 env uri owner repo _ _ _ resp hpath
      hrawc hfetch hst
  · rw [handler_pr env uri owner repo orest rrest (some pathParts) sha branch
      tag p prest n s hclient hn hprs]
    exact resultMime_afterSelectors_200 env uri owner repo _ _ _ resp hpath
      hrawc hfetch hst

/-- C4 witness: a `.md` path with a `text/plain` header yields
`text/markdown` on concrete inputs. -/
theorem C4_mime_determination_witness :
    ((String.intercalate "/" ["README.md"] == "" ||
      goHasSuffix (String.intercalate "/" ["README.md"]) "/") = false) ∧
    resultMime (repoContentsHandler
      { getClient := Except.ok (), prHeadSHA := fun _ _ _ => Except.ok "abc123",
        getRawClient := Except.ok (), rawBase := "https://raw.example.com",
        fetch := fun _ => Except.ok ⟨200, "text/plain", "# hi"⟩ }
      { uri := "", owner := some ["owner"], repo := some ["repo"],
        path := some ["README.md"] }).1 = some "text/markdown" := by
  refine ⟨by decide, ?_⟩
  have h := C4_mime_determination
    { getClient := Except.ok (), prHeadSHA := fun _ _ _ => Except.ok "abc123",
      getRawClient := Except.ok (), rawBase := "https://raw.example.com",
      fetch := fun _ => Except.ok ⟨200, "text/plain", "# hi"⟩ }
    "" "owner" "repo" [] [] ["README.md"] none none none none
    ⟨200, "text/plain", "# hi"⟩ (by decide) (Or.inl rfl) rfl
    (fun _ => rfl) rfl
  simpa using h

/-- On a 200 response the body is classified text or blob exactly by the
MIME-prefix test applied to the determined MIME type. -/
lemma classify_afterSelectors_200 (env : RawEnv)
    (uri owner repo path : String) (rawOpts : RawContentOpts)
    (events : List NetEvent) (resp : RawResp)
    (hpath : (path == "" || goHasSuffix path "/") = false)
    (hrawc : env.getRawClient = Except.ok ())
    (hfetch : ∀ u, env.fetch u = Except.ok resp)
    (hst : resp.status = 200) :
    (claimIsTextual (responseMime path resp.contentType) = true →
      (afterSelectors env uri owner repo path rawOpts events).1 =
        Except.ok [ResourceContents.text uri
          (responseMime path resp.contentType) resp.body]) ∧
    (claimIsTextual (responseMime path resp.contentType) = false →
      (afterSelectors env uri owner repo path rawOpts events).1 =
        Except.ok [ResourceContents.blob uri
          (responseMime path resp.contentType) (base64Encode resp.body)]) := by
  rw [afterSelectors_200 env uri owner repo path rawOpts events resp hpath
    hrawc hfetch hst]
  simp only [apply_ite Prod.fst]
  constructor <;> intro h <;> unfold claimIsTextual at h <;> simp [h]

/-- C5: every 200 response whose determined MIME type begins with `text` or
`application` comes back as a UTF-8 text resource carrying the body, and
every other MIME type (including empty) comes back as a base64 blob
resource; the classification is a function of path, header and body, so
identical inputs are classified identically. -/
theorem C5_text_blob_classification (env : RawEnv) (uri owner repo : String)
    (orest rrest pathParts : List String)
    (sha branch tag prNum : Option (List String)) (resp : RawResp)
    (hpath : (String.intercalate "/" pathParts == "" ||
      goHasSuffix (String.intercalate "/" pathParts) "/") = false)
    (hpr : prNum = none ∨ ∃ p prest n, prNum = some (p :: prest) ∧
      goAtoi p = some n ∧ env.getClient = Except.ok () ∧
      ∃ s, env.prHeadSHA owner repo n = Except.ok s)
    (hrawc : env.getRawClient = Except.ok ())
    (hfetch : ∀ u, env.fetch u = Except.ok resp)
    (hst : resp.status = 200) :
    (claimIsTextual (responseMime (String.intercalate "/" pathParts)
        resp.contentType) = true →
      (repoContentsHandler env
        { uri := uri, owner := some (owner :: orest),
          repo := some (repo :: rrest), path := some pathParts, sha := sha,
          branch := branch, tag := tag, prNumber := prNum }).1 =
        Except.ok [ResourceContents.text uri
          (responseMime (String.intercalate "/" pathParts) resp.contentType)
          resp.body]) ∧
    (claimIsTextual (responseMime (String.intercalate "/" pathParts)
        resp.contentType) = false →
      (repoContentsHandler env
        { uri := uri, owner := some (owner :: orest),
          repo := some (repo :: rrest), path := some pathParts, sha := sha,
          branch := branch, tag := tag, prNumber := prNum }).1 =
        Except.ok [ResourceContents.blob uri
          (responseMime (String.intercalate "/" pathParts) resp.contentType)
          (base64Encode resp.body)]) := by
  rcases hpr with rfl | ⟨p, prest, n, rfl, hn, hclient, s, hprs⟩
  · rw [handler_noPr]
    exact classify_afterSelectors_200 env uri owner repo _ _ _ resp hpath
      hrawc hfetch hst
  · rw [handler_pr env uri owner repo orest rrest (some pathParts) sha branch
      tag p prest n s hclient hn hprs]
    exact classify_afterSelectors_200 env uri owner repo _ _ _ resp hpath
      hrawc hfetch hst

/-- C5 witness: an `image/png` response on a concrete request comes back as
the base64 blob the repository's own handler test expects. -/
theorem C5_text_blob_classification_witness :
    claimIsTextual (responseMime (String.intercalate "/" ["data.png"])
      "image/png") = false ∧
    (repoContentsHandler
      { getClient := Except.ok (), prHeadSHA := fun _ _ _ => Except.ok "abc123",
        getRawClient := Except.ok (), rawBase := "https://raw.example.com",
        fetch := fun _ => Except.ok ⟨200, "image/png",
          "# Test Repository\n\nThis is a test repository."⟩ }
      { uri := "", owner := some ["owner"], repo := some ["repo"],
        path := some ["data.png"] }).1 =
      Except.ok [ResourceContents.blob "" "image/png"
        "IyBUZXN0IFJlcG9zaXRvcnkKClRoaXMgaXMgYSB0ZXN0IHJlcG9zaXRvcnku"] := by
  have h := C5_text_blob_classification
    { getClient := Except.ok (), prHeadSHA := fun _ _ _ => Except.ok "abc123",
      getRawClient := Except.ok (), rawBase := "https://raw.example.com",
      fetch := fun _ => Except.ok ⟨200, "image/png",
        "# Test Repository\n\nThis is a test repository."⟩ }
    "" "owner" "repo" [] [] ["data.png"] none none none none
    ⟨200, "image/png", "# Test Repository\n\nThis is a test repository."⟩
    (by decide) (Or.inl rfl) rfl (fun _ => rfl) rfl
  refine ⟨by decide, ?_⟩
  rw [h.2 (by decide)]
  rfl

/-- C6 counterexample: with `prNumber = ["42"]` and an empty path the
handler does reject the request as a directory, but only after performing
the auxiliary pull-request network lookup — the trace is not empty, so the
rejection does not happen before any network call for every selector
combination. -/
theorem C6_counterexample :
    (repoContentsHandler
      { getClient := Except.ok (), prHeadSHA := fun _ _ _ => Except.ok "abc123",
        getRawClient := Except.ok (), rawBase := "https://raw.example.com",
        fetch := fun _ => Except.error "unreachable" }
      { uri := "", owner := some ["o"], repo := some ["r"], path := some [],
        prNumber := some ["42"] }).1 =
      Except.error "directories are not supported: " ∧
    (repoContentsHandler
      { getClient := Except.ok (), prHeadSHA := fun _ _ _ => Except.ok "abc123",
        getRawClient := Except.ok (), rawBase := "https://raw.example.com",
        fetch := fun _ => Except.error "unreachable" }
      { uri := "", owner := some ["o"], repo := some ["r"], path := some [],
        prNumber := some ["42"] }).2 =
      [NetEvent.prLookup "o" "r" 42] ∧
    (repoContentsHandler
      { getClient := Except.ok (), prHeadSHA := fun _ _ _ => Except.ok "abc123",
        getRawClient := Except.ok (), rawBase := "https://raw.example.com",
        fetch := fun _ => Except.error "unreachable" }
      { uri := "", owner := some ["o"], repo := some ["r"], path := some [],
        prNumber := some ["42"] }).2 ≠ [] := by
  refine ⟨rfl, rfl, ?_⟩
  intro h
  have h2 : ([NetEvent.prLookup "o" "r" 42] : List NetEvent) = [] := h
  cases h2

/-- C6 (amended): an empty or `/`-terminated path is always rejected with
the directories-not-supported error before the raw-content fetch; when
`prNumber` is absent no network call at all precedes the rejection, while a
present `prNumber` triggers the auxiliary pull-request lookup first and
(on its success) the rejection then follows with only that lookup in the
trace. -/
theorem C6_directory_rejection (env : RawEnv) (uri owner repo : String)
    (orest rrest pathParts : List String) (sha branch tag : Option (List String))
    (hdir : (String.intercalate "/" pathParts == "" ||
      goHasSuffix (String.intercalate "/" pathParts) "/") = true) :
    (repoContentsHandler env
      { uri := uri, owner := some (owner :: orest),
        repo := some (repo :: rrest), path := some pathParts, sha := sha,
        branch := branch, tag := tag, prNumber := none } =
      (Except.error ("directories are not supported: " ++
        String.intercalate "/" pathParts), [])) ∧
    (∀ (p : String) (prest : List String) (n : Nat) (headSha : String),
      env.getClient = Except.ok () → goAtoi p = some n →
      env.prHeadSHA owner repo n = Except.ok headSha →
      repoContentsHandler env
        { uri := uri, owner := some (owner :: orest),
          repo := some (repo :: rrest), path := some pathParts, sha := sha,
          branch := branch, tag := tag, prNumber := some (p :: prest) } =
        (Except.error ("directories are not supported: " ++
          String.intercalate "/" pathParts),
         [NetEvent.prLookup owner repo n])) := by
  constructor
  · rw [handler_noPr]
    simp only [afterSelectors, hdir, if_true]
  · intro p prest n headSha hclient hn hpr
    rw [handler_pr env uri owner repo orest rrest (some pathParts) sha branch
      tag p prest n headSha hclient hn hpr]
    simp only [afterSelectors, hdir, if_true]

/-- C6 amended-theorem witness: a `/`-terminated concrete path is rejected
with an empty trace when no `prNumber` is supplied. -/
theorem C6_directory_rejection_witness :
    ((String.intercalate "/" ["src/"] == "" ||
      goHasSuffix (String.intercalate "/" ["src/"]) "/") = true) ∧
    repoContentsHandler
      { getClient := Except.ok (), prHeadSHA := fun _ _ _ => Except.ok "abc123",
        getRawClient := Except.ok (), rawBase := "https://raw.example.com",
        fetch := fun _ => Except.error "unreachable" }
      { uri := "", owner := some ["o"], repo := some ["r"],
        path := some ["src/"] } =
      (Except.error "directories are not supported: src/", []) := by
  refine ⟨by decide, ?_⟩
  have h := C6_directory_rejection
    { getClient := Except.ok (), prHeadSHA := fun _ _ _ => Except.ok "abc123",
      getRawClient := Except.ok (), rawBase := "https://raw.example.com",
      fetch := fun _ => Except.error "unreachable" }
    "" "o" "r" [] [] ["src/"] none none none (by decide)
  exact h.1

/-- Reduction of `afterSelectors` on a non-200 response: a 404 becomes the
literal `404 Not Found` error, any other non-200 status becomes an error
carrying the response body, and the trace gains exactly the raw fetch. -/
lemma afterSelectors_non200 (env : RawEnv) (uri owner repo path : String)
    (rawOpts : RawContentOpts) (events : List NetEvent) (resp : RawResp)
    (hpath : (path == "" || goHasSuffix path "/") = false)
    (hrawc : env.getRawClient = Except.ok ())
    (hfetch : ∀ u, env.fetch u = Except.ok resp)
    (hst : resp.status ≠ 200) :
    afterSelectors env uri owner repo path rawOpts events =
      ((if resp.status ≠ 404 then
          Except.error ("failed to fetch raw content: " ++ resp.body)
        else Except.error "404 Not Found"),
       events ++ [NetEvent.rawFetch
         (URLFromOpts env.rawBase (some rawOpts) owner repo path)]) := by
  simp only [afterSelectors, hpath, Bool.false_eq_true, if_false, hrawc,
    hfetch, hst]
  split <;> rfl

/-- The handler's trace after a successful selector phase is exactly the one
raw-content fetch, whatever the response is. -/
lemma afterSelectors_snd (env : RawEnv) (uri owner repo path : String)
    (rawOpts : RawContentOpts) (events : List NetEvent)
    (hpath : (path == "" || goHasSuffix path "/") = false)
    (hrawc : env.getRawClient = Except.ok ()) :
    (afterSelectors env uri owner repo path rawOpts events).2 =
      events ++ [NetEvent.rawFetch
        (URLFromOpts env.rawBase (some rawOpts) owner repo path)] := by
  simp only [afterSelectors, hpath, Bool.false_eq_true, if_false, hrawc]
  cases env.fetch (URLFromOpts env.rawBase (some rawOpts) owner repo path) with
  | error e => rfl
  | ok resp =>
    simp only []
    split
    · split <;> rfl
    · split <;> rfl

/-- C7: in the repository-content handler — whatever selector combination
is supplied — a fetch response whose status is neither 200 nor 404 surfaces
as an error carrying the response body text, a 404 propagates as the
distinct `404 Not Found` error, and the raw-content fetch is always the
last network event: no directory-listing fallback call follows it. -/
theorem C7_fetch_failure_semantics (env : RawEnv) (uri owner repo : String)
    (orest rrest pathParts : List String)
    (sha branch tag prNum : Option (List String)) (resp : RawResp)
    (hpath : (String.intercalate "/" pathParts == "" ||
      goHasSuffix (String.intercalate "/" pathParts) "/") = false)
    (hpr : prNum = none ∨ ∃ p prest n, prNum = some (p :: prest) ∧
      goAtoi p = some n ∧ env.getClient = Except.ok () ∧
      ∃ s, env.prHeadSHA owner repo n = Except.ok s)
    (hrawc : env.getRawClient = Except.ok ())
    (hfetch : ∀ u, env.fetch u = Except.ok resp) :
    (resp.status ≠ 200 → resp.status ≠ 404 →
      (repoContentsHandler env
        { uri := uri, owner := some (owner :: orest),
          repo := some (repo :: rrest), path := some pathParts, sha := sha,
          branch := branch, tag := tag, prNumber := prNum }).1 =
        Except.error ("failed to fetch raw content: " ++ resp.body)) ∧
    (resp.status = 404 →
      (repoContentsHandler env
        { uri := uri, owner := some (owner :: orest),
          repo := some (repo :: rrest), path := some pathParts, sha := sha,
          branch := branch, tag := tag, prNumber := prNum }).1 =
        Except.error "404 Not Found") ∧
    (∃ pre u, (repoContentsHandler env
        { uri := uri, owner := some (owner :: orest),
          repo := some (repo :: rrest), path := some pathParts, sha := sha,
          branch := branch, tag := tag, prNumber := prNum }).2 =
      pre ++ [NetEvent.rawFetch u]) := by
  rcases hpr with rfl | ⟨p, prest, n, rfl, hn, hclient, s, hprs⟩
  · refine ⟨?_, ?_, ?_⟩
    · intro h200 h404
      rw [handler_noPr,
        afterSelectors_non200 env uri owner repo _ _ _ resp hpath hrawc hfetch
          h200]
      simp [h404]
    · intro h404
      have h200 : resp.status ≠ 200 := by rw [h404]; decide
      rw [handler_noPr,
        afterSelectors_non200 env uri owner repo _ _ _ resp hpath hrawc hfetch
          h200]
      simp [h404]
    · refine ⟨[], URLFromOpts env.rawBase (some (selectorOpts sha branch tag))
        owner repo (String.intercalate "/" pathParts), ?_⟩
      rw [handler_noPr,
        afterSelectors_snd env uri owner repo _ _ _ hpath hrawc]
  · refine ⟨?_, ?_, ?_⟩
    · intro h200 h404
      rw [handler_pr env uri owner repo orest rrest (some pathParts) sha
        branch tag p prest n s hclient hn hprs,
        afterSelectors_non200 env uri owner repo _ _ _ resp hpath hrawc hfetch
          h200]
      simp [h404]
    · intro h404
      have h200 : resp.status ≠ 200 := by rw [h404]; decide
      rw [handler_pr env uri owner repo orest rrest (some pathParts) sha
        branch tag p prest n s hclient hn hprs,
        afterSelectors_non200 env uri owner repo _ _ _ resp hpath hrawc hfetch
          h200]
      simp [h404]
    · refine ⟨[NetEvent.prLookup owner repo n],
        URLFromOpts env.rawBase
          (some { selectorOpts sha branch tag with SHA := s }) owner repo
          (String.intercalate "/" pathParts), ?_⟩
      rw [handler_pr env uri owner repo orest rrest (some pathParts) sha
        branch tag p prest n s hclient hn hprs,
        afterSelectors_snd env uri owner repo _ _ _ hpath hrawc]

/-- C7 witness: a 404 response on a concrete request yields the literal
`404 Not Found` error after exactly one fetch. -/
theorem C7_fetch_failure_semantics_witness :
    ((String.intercalate "/" ["nonexistent.md"] == "" ||
      goHasSuffix (String.intercalate "/" ["nonexistent.md"]) "/") = false) ∧
    (repoContentsHandler
      { getClient := Except.ok (), prHeadSHA := fun _ _ _ => Except.ok "abc123",
        getRawClient := Except.ok (), rawBase := "https://raw.example.com",
        fetch := fun _ =>
          Except.ok ⟨404, "application/json", "\x7b\x22message\x22: \x22Not Found\x22\x7d"⟩ }
      { uri := "", owner := some ["owner"], repo := some ["repo"],
        path := some ["nonexistent.md"], branch := some ["main"] }).1 =
      Except.error "404 Not Found" := by
  refine ⟨by decide, ?_⟩
  have h := C7_fetch_failure_semantics
    { getClient := Except.ok (), prHeadSHA := fun _ _ _ => Except.ok "abc123",
      getRawClient := Except.ok (), rawBase := "https://raw.example.com",
      fetch := fun _ =>
        Except.ok ⟨404, "application/json", "\x7b\x22message\x22: \x22Not Found\x22\x7d"⟩ }
    "" "owner" "repo" [] [] ["nonexistent.md"] none (some ["main"]) none none
    ⟨404, "application/json", "\x7b\x22message\x22: \x22Not Found\x22\x7d"⟩
    (by decide) (Or.inl rfl) rfl (fun _ => rfl)
  exact h.2.1 rfl

/-- C8: a request carrying a parseable `prNumber` performs the auxiliary
pull-request lookup, takes the returned head commit SHA, and fetches
exactly `base/owner/repo/<headSHA>/path` — whatever `sha`, `branch` or
`tag` arguments also appear. -/
theorem C8_pr_head_sha_fetch (env : RawEnv) (uri owner repo : String)
    (orest rrest pathParts : List String)
    (sha branch tag : Option (List String)) (p : String)
    (prest : List String) (n : Nat) (headSha : String)
    (hpath : (String.intercalate "/" pathParts == "" ||
      goHasSuffix (String.intercalate "/" pathParts) "/") = false)
    (hclient : env.getClient = Except.ok ())
    (hn : goAtoi p = some n)
    (hpr : env.prHeadSHA owner repo n = Except.ok headSha)
    (hsha : headSha ≠ "")
    (hrawc : env.getRawClient = Except.ok ()) :
    (repoContentsHandler env
      { uri := uri, owner := some (owner :: orest),
        repo := some (repo :: rrest), path := some pathParts, sha := sha,
        branch := branch, tag := tag, prNumber := some (p :: prest) }).2 =
      [NetEvent.prLookup owner repo n,
       NetEvent.rawFetch (joinPath env.rawBase
         [owner, repo, headSha, String.intercalate "/" pathParts])] := by
  rw [handler_pr env uri owner repo orest rrest (some pathParts) sha branch
    tag p prest n headSha hclient hn hpr]
  rw [afterSelectors_snd env uri owner repo _ _ _ hpath hrawc]
  simp [URLFromOpts, commitURL, hsha]

/-- C8 witness: `prNumber = 42` with head SHA `abc123` fetches
`https://raw.example.com/owner/repo/abc123/README.md`, the scenario of the
repository's own handler test. -/
theorem C8_pr_head_sha_fetch_witness :
    ((String.intercalate "/" ["README.md"] == "" ||
      goHasSuffix (String.intercalate "/" ["README.md"]) "/") = false) ∧
    (repoContentsHandler
      { getClient := Except.ok (), prHeadSHA := fun _ _ _ => Except.ok "abc123",
        getRawClient := Except.ok (), rawBase := "https://raw.example.com",
        fetch := fun _ => Except.ok ⟨200, "text/markdown", "# Test"⟩ }
      { uri := "", owner := some ["owner"], repo := some ["repo"],
        path := some ["README.md"], prNumber := some ["42"] }).2 =
      [NetEvent.prLookup "owner" "repo" 42,
       NetEvent.rawFetch "https://raw.example.com/owner/repo/abc123/README.md"] := by
  refine ⟨by decide, ?_⟩
  have h := C8_pr_head_sha_fetch
    { getClient := Except.ok (), prHeadSHA := fun _ _ _ => Except.ok "abc123",
      getRawClient := Except.ok (), rawBase := "https://raw.example.com",
      fetch := fun _ => Except.ok ⟨200, "text/markdown", "# Test"⟩ }
    "" "owner" "repo" [] [] ["README.md"] none none none "42" [] 42 "abc123"
    (by decide) rfl (by decide) rfl (by decide) rfl
  rw [h]
  rfl

/-- `collectJobLogs` produces exactly one result slot per input job. -/
lemma collectJobLogs_length (env : ActionsEnv) (owner repo : String)
    (rc : Bool) (jobs : List WorkflowJob) :
    (collectJobLogs env owner repo rc jobs).1.length = jobs.length := by
  induction jobs with
  | nil => rfl
  | cons j rest ih => simp [collectJobLogs, ih]

/-- The slot at position `i` of `collectJobLogs` is the outcome for the
`i`-th job: its log data on success, the inline error entry on failure. -/
lemma collectJobLogs_get (env : ActionsEnv) (owner repo : String) (rc : Bool)
    (jobs : List WorkflowJob) (i : Nat) (h : i < jobs.length)
    (h2 : i < (collectJobLogs env owner repo rc jobs).1.length) :
    (collectJobLogs env owner repo rc jobs).1.get ⟨i, h2⟩ =
      (match (getJobLogData env owner repo (jobs.get ⟨i, h⟩).id
          (jobs.get ⟨i, h⟩).name rc).1 with
       | .error e =>
         JobLogSlot.fail (jobs.get ⟨i, h⟩).id (jobs.get ⟨i, h⟩).name e
       | .ok d => d) := by
  induction jobs generalizing i with
  | nil => exact absurd h (Nat.not_lt_zero i)
  | cons j rest ih =>
    cases i with
    | zero => rfl
    | succ k =>
      have hk : k < rest.length := Nat.lt_of_succ_lt_succ h
      have hk2 : k < (collectJobLogs env owner repo rc rest).1.length := by
        rw [collectJobLogs_length]; exact hk
      exact ih k hk hk2

/-- C9: in failed-only mode, once the job listing succeeds and at least one
job failed, the handler returns a `failedLogs` result with exactly one slot
per failed job, and any failed job whose log fetch errors gets its error
recorded inline (with its job id and name) in its own slot — the other
slots are still produced. -/
theorem C9_failed_jobs_partial_failure (env : ActionsEnv)
    (owner repo : String) (runID : Nat) (rc : Bool) (jobs : List WorkflowJob)
    (hlist : env.listWorkflowJobs owner repo runID = Except.ok jobs)
    (hne : (jobs.filter (fun j => j.conclusion == "failure")).length ≠ 0) :
    ∃ slots,
      (handleFailedJobLogs env owner repo runID rc).1 =
        Except.ok (ToolOut.failedLogs runID jobs.length
          (jobs.filter (fun j => j.conclusion == "failure")).length slots rc) ∧
      slots.length =
        (jobs.filter (fun j => j.conclusion == "failure")).length ∧
      ∀ (i : Nat)
        (h : i < (jobs.filter (fun j => j.conclusion == "failure")).length)
        (e : String),
        (getJobLogData env owner repo
            ((jobs.filter (fun j => j.conclusion == "failure")).get ⟨i, h⟩).id
            ((jobs.filter (fun j => j.conclusion == "failure")).get ⟨i, h⟩).name
            rc).1 = Except.error e →
        ∀ (h2 : i < slots.length),
          slots.get ⟨i, h2⟩ = JobLogSlot.fail
            ((jobs.filter (fun j => j.conclusion == "failure")).get ⟨i, h⟩).id
            ((jobs.filter (fun j => j.conclusion == "failure")).get ⟨i, h⟩).name
            e := by
  refine ⟨(collectJobLogs env owner repo rc
    (jobs.filter (fun j => j.conclusion == "failure"))).1, ?_, ?_, ?_⟩
  · simp only [handleFailedJobLogs, hlist, hne, if_false]
  · exact collectJobLogs_length env owner repo rc _
  · intro i h e herr h2
    rw [collectJobLogs_get env owner repo rc _ i h h2, herr]

/-- C9 witness: two failed jobs, the first one's log fetch failing; the
result still has two slots and the first slot is the inline error entry. -/
theorem C9_failed_jobs_partial_failure_witness :
    ((([⟨1, "build", "failure"⟩, ⟨2, "test", "success"⟩,
        ⟨3, "lint", "failure"⟩] : List WorkflowJob).filter
      (fun j => j.conclusion == "failure")).length ≠ 0) ∧
    ∃ slots,
      (handleFailedJobLogs
        { getClient := Except.ok ()
          listWorkflowJobs := fun _ _ _ => Except.ok
            [⟨1, "build", "failure"⟩, ⟨2, "test", "success"⟩,
             ⟨3, "lint", "failure"⟩]
          getWorkflowJobLogs := fun _ _ jobId =>
            if jobId = 1 then Except.error "boom"
            else Except.ok "https://logs.example.com/3"
          download := fun _ => Except.ok "log text" }
        "owner" "repo" 7 false).1 =
        Except.ok (ToolOut.failedLogs 7 3 2 slots false) ∧
      slots.length = 2 := by
  refine ⟨by decide, ?_⟩
  have h := C9_failed_jobs_partial_failure
    { getClient := Except.ok ()
      listWorkflowJobs := fun _ _ _ => Except.ok
        [⟨1, "build", "failure"⟩, ⟨2, "test", "success"⟩,
         ⟨3, "lint", "failure"⟩]
      getWorkflowJobLogs := fun _ _ jobId =>
        if jobId = 1 then Except.error "boom"
        else Except.ok "https://logs.example.com/3"
      download := fun _ => Except.ok "log text" }
    "owner" "repo" 7 false
    [⟨1, "build", "failure"⟩, ⟨2, "test", "success"⟩, ⟨3, "lint", "failure"⟩]
    rfl (by decide)
  obtain ⟨slots, h1, h2, _⟩ := h
  exact ⟨slots, h1, h2⟩

/-- C10: with owner and repo present (and the client building), a
`failed_only = true` call without a positive `run_id` gets the
`run_id is required when failed_only is true` tool error, and a call with
`failed_only` false or absent and no positive `job_id` gets the
`job_id is required when failed_only is false` tool error — in both cases
with an empty trace, i.e. without any GitHub API request being issued. -/
theorem C10_job_logs_validation (env : ActionsEnv) (args : GetJobLogsArgs)
    (owner repo : String)
    (hown : args.owner = some owner) (howne : owner ≠ "")
    (hrep : args.repo = some repo) (hrepe : repo ≠ "")
    (hclient : env.getClient = Except.ok ()) :
    (args.failedOnly = some true →
      (args.runId = none ∨ args.runId = some 0) →
      getJobLogsHandler env args =
        (Except.ok (ToolOut.errorResult
          "run_id is required when failed_only is true"), [])) ∧
    ((args.failedOnly = none ∨ args.failedOnly = some false) →
      (args.jobId = none ∨ args.jobId = some 0) →
      getJobLogsHandler env args =
        (Except.ok (ToolOut.errorResult
          "job_id is required when failed_only is false"), [])) := by
  constructor
  · intro hf hr
    have hrun : optionalNatParam args.runId = 0 := by
      rcases hr with h | h <;> simp [optionalNatParam, h]
    simp [getJobLogsHandler, requiredStringParam, hown, hrep, howne, hrepe,
      hclient, hf, hrun, optionalBoolParam]
  · intro hf hj
    have hjob : optionalNatParam args.jobId = 0 := by
      rcases hj with h | h <;> simp [optionalNatParam, h]
    have hfo : optionalBoolParam args.failedOnly = false := by
      rcases hf with h | h <;> simp [optionalBoolParam, h]
    simp [getJobLogsHandler, requiredStringParam, hown, hrep, howne, hrepe,
      hclient, hjob, hfo]

/-- C10 witness: concrete calls exercising both validation errors. -/
theorem C10_job_logs_validation_witness :
    (({ owner := some "octocat", repo := some "hello",
        failedOnly := some true } : GetJobLogsArgs).owner = some "octocat") ∧
    getJobLogsHandler
      { getClient := Except.ok ()
        listWorkflowJobs := fun _ _ _ => Except.error "unreachable"
        getWorkflowJobLogs := fun _ _ _ => Except.error "unreachable"
        download := fun _ => Except.error "unreachable" }
      { owner := some "octocat", repo := some "hello",
        failedOnly := some true } =
      (Except.ok (ToolOut.errorResult
        "run_id is required when failed_only is true"), []) ∧
    getJobLogsHandler
      { getClient := Except.ok ()
        listWorkflowJobs := fun _ _ _ => Except.error "unreachable"
        getWorkflowJobLogs := fun _ _ _ => Except.error "unreachable"
        download := fun _ => Except.error "unreachable" }
      { owner := some "octocat", repo := some "hello" } =
      (Except.ok (ToolOut.errorResult
        "job_id is required when failed_only is false"), []) := by
  refine ⟨rfl, ?_, ?_⟩
  · exact (C10_job_logs_validation
      { getClient := Except.ok ()
        listWorkflowJobs := fun _ _ _ => Except.error "unreachable"
        getWorkflowJobLogs := fun _ _ _ => Except.error "unreachable"
        download := fun _ => Except.error "unreachable" }
      { owner := some "octocat", repo := some "hello",
        failedOnly := some true }
      "octocat" "hello" rfl (by decide) rfl (by decide) rfl).1 rfl
      (Or.inl rfl)
  · exact (C10_job_logs_validation
      { getClient := Except.ok ()
        listWorkflowJobs := fun _ _ _ => Except.error "unreachable"
        getWorkflowJobLogs := fun _ _ _ => Except.error "unreachable"
        download := fun _ => Except.error "unreachable" }
      { owner := some "octocat", repo := some "hello" }
      "octocat" "hello" rfl (by decide) rfl (by decide) rfl).2 (Or.inl rfl)
      (Or.inl rfl)

/-- Enabling a toolset changes only `enabled` flags: the flattened list of
registered operations is unchanged. -/
lemma flatTools_map_enable (l : List Toolset) (n : String) :
    (l.map (fun ts => if ts.name == n then { ts with enabled := true }
      else ts)).flatMap (fun u => u.readTools ++ u.writeTools) =
      l.flatMap (fun u => u.readTools ++ u.writeTools) := by
  induction l with
  | nil => rfl
  | cons a l ih =>
    simp only [List.map_cons, List.flatMap_cons, ih]
    congr 1
    split <;> rfl

/-- `enableToolset` preserves the registered-operation-name list. -/
lemma enableToolset_allToolNames (g : ToolsetGroup) (n : String) :
    allToolNames (enableToolset g n) = allToolNames g := by
  unfold allToolNames enableToolset
  rw [flatTools_map_enable]

/-- Any sequence of `EnableToolset` calls preserves the
registered-operation-name list. -/
lemma applyEnables_allToolNames (g : ToolsetGroup) (names : List String) :
    allToolNames (applyEnables g names) = allToolNames g := by
  induction names generalizing g with
  | nil => rfl
  | cons n rest ih =>
    show allToolNames (applyEnables (enableToolset g n) rest) = _
    rw [ih, enableToolset_allToolNames]

/-- Any sequence of `EnableToolset` calls preserves the fixed `readOnly`
policy. -/
lemma applyEnables_readOnly (g : ToolsetGroup) (names : List String) :
    (applyEnables g names).readOnly = g.readOnly := by
  induction names generalizing g with
  | nil => rfl
  | cons n rest ih =>
    show (applyEnables (enableToolset g n) rest).readOnly = _
    rw [ih]
    rfl

/-- In a read-only group every exposed tool comes from some member
toolset's read-tool list. -/
lemma mem_exposed_readOnly {g : ToolsetGroup} {t : Tool}
    (hro : g.readOnly = true) (ht : t ∈ exposedTools g) :
    ∃ ts, ts ∈ g.toolsets ∧ t ∈ ts.readTools := by
  unfold exposedTools at ht
  rw [hro] at ht
  simp only [if_true, List.append_nil, List.mem_flatMap, List.mem_filter]
    at ht
  obtain ⟨ts, ⟨hmem, _⟩, htr⟩ := ht
  exact ⟨ts, hmem, htr⟩

/-- In a read-only group whose registered operation names are unique across
the whole group (the spec's group-wide invariant), no write-registered tool
is ever exposed. -/
lemma readonly_no_write_exposure {g : ToolsetGroup} {ts : Toolset} {t : Tool}
    (hro : g.readOnly = true) (hnodup : (allToolNames g).Nodup)
    (hts : ts ∈ g.toolsets) (ht : t ∈ ts.writeTools) :
    t ∉ exposedTools g := by
  intro hexp
  obtain ⟨ts', hts', htr⟩ := mem_exposed_readOnly hro hexp
  have hN : (g.toolsets.flatMap
      (fun u => (u.readTools ++ u.writeTools).map Tool.name)).Nodup := by
    have : allToolNames g = g.toolsets.flatMap
        (fun u => (u.readTools ++ u.writeTools).map Tool.name) := by
      unfold allToolNames
      rw [List.map_flatMap]
    rwa [this] at hnodup
  rw [List.nodup_flatMap] at hN
  by_cases hsame : ts = ts'
  · subst hsame
    have hper := hN.1 ts hts
    rw [List.map_append] at hper
    have hdisj := List.disjoint_of_nodup_append hper
    exact hdisj (List.mem_map_of_mem Tool.name htr)
      (List.mem_map_of_mem Tool.name ht)
  · have hsymm : Symmetric (fun a b : Toolset =>
        ((a.readTools ++ a.writeTools).map Tool.name).Disjoint
          ((b.readTools ++ b.writeTools).map Tool.name)) :=
      fun a b hd => List.Disjoint.symm hd
    have hdisj := (List.Pairwise.forall hsymm hN.2) hts hts'
      hsame
    have hmem1 : t.name ∈ (ts.readTools ++ ts.writeTools).map Tool.name := by
      rw [List.map_append]
      exact List.mem_append_right _ (List.mem_map_of_mem Tool.name ht)
    have hmem2 : t.name ∈ (ts'.readTools ++ ts'.writeTools).map Tool.name := by
      rw [List.map_append]
      exact List.mem_append_left _ (List.mem_map_of_mem Tool.name htr)
    exact hdisj hmem1 hmem2

/-- C1: a group constructed read-only, whose registered operation names are
unique across the group, never exposes an operation registered via
`AddWriteTools` — for every member toolset, every enabled-flag
configuration, and every sequence of `EnableToolset` calls. -/
theorem C1_readonly_never_exposes_write_tools (g : ToolsetGroup)
    (names : List String) (ts : Toolset) (t : Tool)
    (hro : g.readOnly = true)
    (hnodup : (allToolNames g).Nodup)
    (hts : ts ∈ (applyEnables g names).toolsets)
    (ht : t ∈ ts.writeTools) :
    t ∉ exposedTools (applyEnables g names) := by
  have hro' : (applyEnables g names).readOnly = true := by
    rw [applyEnables_readOnly]; exact hro
  have hnodup' : (allToolNames (applyEnables g names)).Nodup := by
    rw [applyEnables_allToolNames]; exact hnodup
  exact readonly_no_write_exposure hro' hnodup' hts ht

/-- C1 witness: in the concrete read-only example group, after enabling the
`repos` toolset, the write tool is still not exposed. -/
theorem C1_readonly_never_exposes_write_tools_witness :
    exampleReadOnlyGroup.readOnly = true ∧
    (allToolNames exampleReadOnlyGroup).Nodup ∧
    exampleEnabledRepos ∈ (applyEnables exampleReadOnlyGroup
      ["repos"]).toolsets ∧
    ({ name := "create_or_update_file" } : Tool) ∈
      exampleEnabledRepos.writeTools ∧
    ({ name := "create_or_update_file" } : Tool) ∉
      exposedTools (applyEnables exampleReadOnlyGroup ["repos"]) := by
  refine ⟨rfl, by decide, by decide, by decide, ?_⟩
  exact C1_readonly_never_exposes_write_tools exampleReadOnlyGroup ["repos"]
    exampleEnabledRepos { name := "create_or_update_file" }
    rfl (by decide) (by decide) (by decide)

end GithubMcp
